import Mathlib

/-!
A shallow embedding of the request/response pipeline of the tiny-http
library: header parsing (common.rs and client.rs), request-line parsing,
transfer-encoding selection and response serialisation (response.rs),
the per-connection request iterator (client.rs), and the TLS context
construction (ssl/rustls.rs).  External crates (http, rustls-pemfile,
chunked_transfer) are modelled from their documented behaviour where the
source delegates to them.
-/

/-- HTTP versions, mirroring `http::Version` (whose derived order is
`HTTP_09 < HTTP_10 < HTTP_11 < HTTP_2 < HTTP_3`). -/
inductive Version where
  | http09
  | http10
  | http11
  | http2
  | http3
deriving DecidableEq

/-- Ordinal of a version in the `http::Version` order. -/
def Version.ord : Version → Nat
  | .http09 => 0
  | .http10 => 1
  | .http11 => 2
  | .http2 => 3
  | .http3 => 4

/-- `a <= b` on `http::Version` (used by `choose_transfer_encoding`). -/
def Version.le (a b : Version) : Bool := decide (a.ord ≤ b.ord)

/-- `*rq.http_version() > Version::HTTP_11` from `ClientConnection::next`. -/
def version_gt_11 (v : Version) : Bool := decide (Version.ord Version.http11 < v.ord)

/-- The Unicode White_Space property, as used by Rust's
`char::is_whitespace` (and hence `str::trim` and
`str::contains(char::is_whitespace)`). -/
def is_rust_whitespace (c : Char) : Bool :=
  let n := c.toNat
  (9 ≤ n && n ≤ 13) || n == 32 || n == 133 || n == 160 || n == 5760 ||
    (8192 ≤ n && n ≤ 8202) || n == 8232 || n == 8233 || n == 8239 ||
    n == 8287 || n == 12288

/-- Rust `str::trim`: strip `char::is_whitespace` characters from both ends. -/
def rust_trim (s : List Char) : List Char :=
  ((s.dropWhile is_rust_whitespace).reverse.dropWhile is_rust_whitespace).reverse

example : rust_trim "  ab c\t ".data = "ab c".data := by decide

/-! ## common.rs: `Header` and `HeaderField` parsing -/

/-- `HeaderField::from_str` (common.rs): reject any string containing
`char::is_whitespace`, otherwise require pure ASCII
(`AsciiString::from_ascii`). -/
def header_field_from_str (s : List Char) : Option (List Char) :=
  if s.any is_rust_whitespace then none
  else if s.all (fun c => c.toNat < 128) then some s
  else none

/-- `<Header as FromStr>::from_str` (common.rs): `input.splitn(2, ':')`
yields the text before the first colon as the field (parsed by
`header_field_from_str`) and the rest (absent when there is no colon) as
the value, which is trimmed and must be ASCII. -/
def header_from_str (input : List Char) : Option (List Char × List Char) :=
  let field_str := input.takeWhile (fun c => c != ':')
  match header_field_from_str field_str with
  | none => none
  | some field =>
    if input.contains ':' then
      let trimmed := rust_trim ((input.dropWhile (fun c => c != ':')).tail)
      if trimmed.all (fun c => c.toNat < 128) then some (field, trimmed)
      else none
    else none

example : header_from_str "Content-Type: text/html".data
    = some ("Content-Type".data, "text/html".data) := by decide
example : header_from_str "hello world".data = none := by decide

/-! ## client.rs: request-line and header-line parsing

The `http` crate's `Method`, `Uri`, `HeaderName` and `HeaderValue`
parsers are external to this repository; they are modelled below from
the crate's documented grammar. -/

/-- An RFC 7230 `token` character: digits, letters and
``! # $ % & ' * + - . ^ _ ` | ~`` (the character set accepted by
`http::Method` and `http::HeaderName`). -/
def is_token_char (c : Char) : Bool :=
  let n := c.toNat
  (48 ≤ n && n ≤ 57) || (65 ≤ n && n ≤ 90) || (97 ≤ n && n ≤ 122) ||
    n == 33 || n == 35 || n == 36 || n == 37 || n == 38 || n == 39 ||
    n == 42 || n == 43 || n == 45 || n == 46 || n == 94 || n == 95 ||
    n == 96 || n == 124 || n == 126

/-- Model of `http::Method::from_str` (external crate): any non-empty
token is a valid method. -/
def parse_method (s : List Char) : Option (List Char) :=
  if !s.isEmpty && s.all is_token_char then some s else none

/-- Simplified model of `http::Uri::from_str` (external crate): a
non-empty string of visible ASCII characters parses as a URI. -/
def parse_uri (s : List Char) : Option (List Char) :=
  if !s.isEmpty && s.all (fun c => 33 ≤ c.toNat && c.toNat ≤ 126) then some s
  else none

/-- `parse_http_version` (client.rs): only the five listed version
strings are recognised; anything else is `WrongRequestLine`. -/
def parse_http_version (s : List Char) : Option Version :=
  if s = "HTTP/0.9".data then some Version.http09
  else if s = "HTTP/1.0".data then some Version.http10
  else if s = "HTTP/1.1".data then some Version.http11
  else if s = "HTTP/2.0".data then some Version.http2
  else if s = "HTTP/3.0".data then some Version.http3
  else none

/-- Rust `str::split(' ')`: split at every space, keeping empty pieces
(`""` splits to `[""]`, `"a  b"` to `["a", "", "b"]`). -/
def split_spaces : List Char → List (List Char)
  | [] => [[]]
  | c :: t =>
    if c == ' ' then [] :: split_spaces t
    else
      match split_spaces t with
      | h :: r => (c :: h) :: r
      | [] => [[c]]

example : split_spaces "a  b".data = ["a".data, [], "b".data] := by decide

/-- `parse_request_line` (client.rs): take the first three pieces of
`line.split(' ')` and require a method, a URI and a version; the
remaining pieces are never examined. -/
def parse_request_line (line : List Char) : Option (List Char × List Char × Version) :=
  let parts := split_spaces line
  let method := parts[0]?.bind parse_method
  let path := parts[1]?.bind parse_uri
  let version := parts[2]?.bind parse_http_version
  match method, path, version with
  | some m, some p, some v => some (m, p, v)
  | _, _, _ => none

example : parse_request_line "GET /hello HTTP/1.1".data
    = some ("GET".data, "/hello".data, Version.http11) := by decide
example : parse_request_line "GET /hello".data = none := by decide
example : parse_request_line "qsd qsd qsd".data = none := by decide

/-- Model of `http::HeaderName::from_str` (external crate): a non-empty
token, normalised to lowercase. -/
def header_name_parse (s : List Char) : Option (List Char) :=
  if !s.isEmpty && s.all is_token_char then some (s.map Char.toLower) else none

/-- Valid bytes of a `http::HeaderValue` (external crate): horizontal
tab or any byte that is at least 0x20 and not DEL. -/
def is_header_value_char (c : Char) : Bool :=
  c.toNat == 9 || (32 ≤ c.toNat && c.toNat != 127)

/-- One iteration of the header loop in `ClientConnection::read`
(client.rs, lines 127-133), for a non-empty line: the line is first
`trim`med, then split at the first colon; the name is parsed as a
`HeaderName` and the trimmed value as a `HeaderValue`.  `none` models
`ReadError::WrongHeader`. -/
def read_header_line (line : List Char) : Option (List Char × List Char) :=
  let header := rust_trim line
  if header.contains ':' then
    let n := header.takeWhile (fun c => c != ':')
    let v := (header.dropWhile (fun c => c != ':')).tail
    match header_name_parse n with
    | none => none
    | some name =>
      let value := rust_trim v
      if value.all is_header_value_char then some (name, value) else none
  else none

example : read_header_line "Host: x".data = some ("host".data, "x".data) := by decide
example : read_header_line "Transfer Encoding: chunked".data = none := by decide

/-! ## response.rs: `Response`, transfer-encoding selection, `raw_print`

Header names are `http::HeaderName` values, which the `http` crate
normalises to lowercase; the model therefore uses lowercase strings for
names.  A `HeaderMap` is modelled as a list of name/value pairs in
insertion order.  The body reader is modelled by the list of bytes it
yields before EOF. -/

/-- The two supported transfer encodings (response.rs). -/
inductive TransferEncoding where
  | identity
  | chunked
deriving DecidableEq

/-- The `Response<R>` struct (response.rs), with the reader replaced by
the bytes it yields. -/
structure Response where
  reader_bytes : List Nat
  status_code : Nat
  headers : List (String × String)
  data_length : Option Nat
  chunked_threshold : Option Nat
deriving DecidableEq

/-- `Response::chunked_threshold` (response.rs): the configured value,
defaulting to 32768. -/
def chunked_threshold_val (r : Response) : Nat := r.chunked_threshold.getD 32768

/-- `usize::from_str` (Rust core): an optional leading plus sign, one or
more digits, and no overflow past `usize::MAX`. -/
def parse_usize (s : List Char) : Option Nat :=
  let s2 := match s with
    | '+' :: t => t
    | _ => s
  if s2.isEmpty then none
  else if s2.all Char.isDigit then
    let v := s2.foldl (fun acc c => 10 * acc + (c.toNat - 48)) 0
    if v < 2 ^ 64 then some v else none
  else none

/-- `HeaderMap::insert` on the list model: replace the first occurrence
of the name by the new value and drop any later occurrences; append when
the name is absent. -/
def headers_insert : List (String × String) → String → String → List (String × String)
  | [], n, v => [(n, v)]
  | p :: t, n, v =>
    if p.1 == n then (n, v) :: t.filter (fun q => !(q.1 == n))
    else p :: headers_insert t n v

/-- Whether the header map contains an entry with the given name. -/
def has_name (hs : List (String × String)) (n : String) : Bool :=
  hs.any (fun p => p.1 == n)

/-- The value of the first entry with the given name (`HeaderMap::get`). -/
def find_value : List (String × String) → String → Option String
  | [], _ => none
  | p :: t, n => if p.1 == n then some p.2 else find_value t n

/-- The names dropped by `Response::add_header` (response.rs): the
pipeline manages these itself. -/
def forbidden_headers : List String :=
  ["connection", "trailer", "transfer-encoding", "upgrade"]

/-- `Response::add_header` (response.rs): forbidden names are ignored,
`Content-Length` sets `data_length` instead of being stored,
`Content-Type` overwrites any previous value, and every other header is
appended. -/
def add_header (r : Response) (name value : String) : Response :=
  if name ∈ forbidden_headers then r
  else if name = "content-length" then
    match parse_usize value.data with
    | some v => { r with data_length := some v }
    | none => r
  else if name = "content-type" then
    { r with headers := headers_insert r.headers "content-type" value }
  else { r with headers := r.headers ++ [(name, value)] }

/-- `choose_transfer_encoding` (response.rs).  The parsed result of the
request's `TE` header (a q-value ranked choice computed by
`util::parse_header_value`, which involves floating-point weights) is
abstracted into the `user_te` argument: `some te` when the block labelled
"parsing the request's TE header" yields a recognised encoding, `none`
otherwise. -/
def choose_transfer_encoding (status_code : Nat) (user_te : Option TransferEncoding)
    (http_version : Version) (entity_length : Option Nat)
    (has_additional_headers : Bool) (chunked_threshold : Nat) : TransferEncoding :=
  if http_version.le Version.http10 then TransferEncoding.identity
  else if (100 ≤ status_code ∧ status_code < 200) ∨ status_code = 204 then
    TransferEncoding.identity
  else
    match user_te with
    | some te => te
    | none =>
      if has_additional_headers then TransferEncoding.chunked
      else if (match entity_length with
               | none => true
               | some val => decide (chunked_threshold ≤ val)) then
        TransferEncoding.chunked
      else TransferEncoding.identity

/-- Bytes of an ASCII string. -/
def str_bytes (s : String) : List Nat := s.data.map Char.toNat

/-- The CRLF line terminator. -/
def crlf : String := "\r\n"

/-- `{:?}` (Debug) rendering of `http::Version`. -/
def version_debug : Version → String
  | .http09 => "HTTP/0.9"
  | .http10 => "HTTP/1.0"
  | .http11 => "HTTP/1.1"
  | .http2 => "HTTP/2.0"
  | .http3 => "HTTP/3.0"

/-- Canonical reason phrases of `http::StatusCode` for the codes this
development touches; the crate's `Display` falls back to an unknown
marker otherwise. -/
def reason_phrase (c : Nat) : String :=
  if c = 100 then "Continue"
  else if c = 101 then "Switching Protocols"
  else if c = 200 then "OK"
  else if c = 204 then "No Content"
  else if c = 304 then "Not Modified"
  else if c = 400 then "Bad Request"
  else if c = 408 then "Request Timeout"
  else if c = 417 then "Expectation Failed"
  else if c = 500 then "Internal Server Error"
  else if c = 505 then "HTTP Version Not Supported"
  else "<unknown status code>"

/-- `Display` of `http::StatusCode`: the decimal code and its reason. -/
def status_display (c : Nat) : String := toString c ++ " " ++ reason_phrase c

/-- `write_message_header` (response.rs): the status line, each header
as `name: value` followed by CRLF, then the blank CRLF separator. -/
def write_message_header (v : Version) (status : Nat)
    (headers : List (String × String)) : List Nat :=
  str_bytes (version_debug v ++ " " ++ status_display status ++ crlf)
    ++ headers.foldr (fun p acc => str_bytes (p.1 ++ ": " ++ p.2 ++ crlf) ++ acc) []
    ++ str_bytes crlf

/-- Model of the `chunked_transfer::Encoder` (external crate) fed by
`io::copy`: the payload framed as a single hex-length-prefixed chunk
(the copy buffer size is abstracted away) followed by the `0` CRLF CRLF
terminator written when the encoder is dropped. -/
def chunked_encode (bytes : List Nat) : List Nat :=
  if bytes.isEmpty then str_bytes ("0" ++ crlf ++ crlf)
  else
    str_bytes (String.mk (Nat.toDigits 16 bytes.length) ++ crlf)
      ++ bytes ++ str_bytes crlf ++ str_bytes ("0" ++ crlf ++ crlf)

/-- The transfer encoding `raw_print` (response.rs) actually uses: the
choice of `choose_transfer_encoding` (the call passes
`has_additional_headers = false`), overridden to `none` when an upgrade
token is present. -/
def effective_transfer (r : Response) (v : Version) (ute : Option TransferEncoding)
    (up : Option String) : Option TransferEncoding :=
  match up with
  | some _ => none
  | none =>
    some (choose_transfer_encoding r.status_code ute v r.data_length false
      (chunked_threshold_val r))

/-- The known body length after the buffering step of `raw_print`
(response.rs): a declared `data_length` is kept; with Identity and no
declared length the whole reader is buffered and measured. -/
def buffered_length (r : Response) (te : Option TransferEncoding) : Option Nat :=
  match r.data_length, te with
  | some l, _ => some l
  | none, some TransferEncoding.identity => some r.reader_bytes.length
  | _, _ => none

/-- The `do_not_send_body` value after `raw_print` widens it: true when
the caller passed true or the status is 1xx, 204 or 304. -/
def response_body_disabled (dnsb : Bool) (status : Nat) : Bool :=
  dnsb || decide ((100 ≤ status ∧ status ≤ 199) ∨ status = 204 ∨ status = 304)

/-- `insert_first_header` (response.rs): the new value becomes the first
value of the name, any previously present values follow it. -/
def insert_first_header : List (String × String) → String → String → List (String × String)
  | [], n, v => [(n, v)]
  | p :: t, n, v =>
    if p.1 == n then
      (n, v) :: (n, p.2) :: ((t.filter (fun q => q.1 == n)).map (fun q => (n, q.2))
        ++ t.filter (fun q => !(q.1 == n)))
    else p :: insert_first_header t n v

/-- The `Date` injection of `raw_print` (response.rs): insert the
current date when the entry is vacant. -/
def headers_with_date (hs : List (String × String)) (date : String) :
    List (String × String) :=
  if has_name hs "date" then hs else hs ++ [("date", date)]

/-- The `Server` injection of `raw_print` (response.rs): insert the
server identification when the entry is vacant. -/
def headers_with_server (hs : List (String × String)) : List (String × String) :=
  if has_name hs "server" then hs else hs ++ [("server", "tiny-http (Rust)")]

/-- The header map `raw_print` (response.rs) sends: `Date` and `Server`
are injected when absent, upgrade headers are forced to the front of
their names, and the framing header (`Transfer-Encoding: chunked` or
`Content-Length`) is appended according to the transfer encoding. -/
def final_headers (r : Response) (te : Option TransferEncoding) (up : Option String)
    (date : String) : List (String × String) :=
  let hs2 := headers_with_server (headers_with_date r.headers date)
  let hs3 := match up with
    | some u => insert_first_header (insert_first_header hs2 "upgrade" u)
        "connection" "upgrade"
    | none => hs2
  match te with
  | some TransferEncoding.chunked => hs3 ++ [("transfer-encoding", "chunked")]
  | some TransferEncoding.identity =>
      hs3 ++ [("content-length", toString ((buffered_length r te).getD 0))]
  | none => hs3

/-- The bytes `raw_print` (response.rs) writes after the header block:
nothing when the body is disabled, the chunked encoding of the reader
for Chunked, and the reader bytes (skipped entirely when the known
length is zero) for Identity.  For Identity the source asserts that the
length is known; `getD 0` stands for that `unwrap`. -/
def body_bytes (r : Response) (te : Option TransferEncoding) (dnsb : Bool) : List Nat :=
  if response_body_disabled dnsb r.status_code then []
  else
    match te with
    | some TransferEncoding.chunked => chunked_encode r.reader_bytes
    | some TransferEncoding.identity =>
        if 1 ≤ (buffered_length r te).getD 0 then r.reader_bytes else []
    | none => []

/-- `Response::raw_print` (response.rs): everything written to the
writer.  The wall-clock `Date` header value is passed in as `date`. -/
def raw_print (r : Response) (v : Version) (ute : Option TransferEncoding)
    (dnsb : Bool) (up : Option String) (date : String) : List Nat :=
  let te := effective_transfer r v ute up
  write_message_header v r.status_code (final_headers r te up date)
    ++ body_bytes r te dnsb

/-- `Response::new_empty` / `Response::empty` (response.rs): no headers,
an empty reader and a declared length of zero. -/
def new_empty (status : Nat) : Response :=
  { reader_bytes := [], status_code := status, headers := [],
    data_length := some 0, chunked_threshold := none }

/-- The message and `Response` built by
`Response::from_string("This server only supports HTTP versions 1.0 and 1.1")
.with_status_code(HTTP_VERSION_NOT_SUPPORTED)` in `ClientConnection::next`. -/
def msg_505 : String := "This server only supports HTTP versions 1.0 and 1.1"

/-- The 505 response of `ClientConnection::next` (client.rs): plain-text
body, declared length equal to the message length, status 505. -/
def resp_505 : Response :=
  { reader_bytes := str_bytes msg_505, status_code := 505,
    headers := [("content-type", "text/plain; charset=UTF-8")],
    data_length := some (str_bytes msg_505).length, chunked_threshold := none }

/-! ## client.rs: the `ClientConnection` request iterator

`ClientConnection::read` performs I/O and delegates to
`request::new_request`; for the iterator its possible outcomes are the
`ReadError` variants and a parsed request.  A connection is modelled by
the sequence of outcomes successive `read` calls produce; an exhausted
sequence stands for end of stream, which `read_next_line` surfaces as a
`ConnectionAborted` I/O error (silently closed by `next`). -/

/-- The `std::io::ErrorKind` values this development distinguishes. -/
inductive IoKind where
  | timedOut
  | connectionAborted
  | invalidInput
  | brokenPipe
  | otherErr
deriving DecidableEq

/-- The part of a parsed `Request` that `ClientConnection::next`
inspects: its HTTP version and the string value of its first
`Connection` header, when present and convertible by `to_str`. -/
structure Rq where
  version : Version
  connection_hdr : Option String
deriving DecidableEq

/-- Outcome of one `ClientConnection::read` call. -/
inductive ReadRes where
  | ok (rq : Rq)
  | wrongRequestLine
  | wrongHeader (v : Version)
  | expectationFailed (v : Version)
  | ioErr (k : IoKind)
deriving DecidableEq

/-- Whether a character list has the pattern as a prefix. -/
def starts_with : List Char → List Char → Bool
  | _, [] => true
  | [], _ :: _ => false
  | a :: s, b :: t => a == b && starts_with s t

/-- Rust `str::contains(&str)`: substring search. -/
def contains_sub : List Char → List Char → Bool
  | [], pat => pat.isEmpty
  | c :: t, pat => starts_with (c :: t) pat || contains_sub t pat

example : contains_sub "keep-alive, close".data "close".data = true := by decide
example : contains_sub "keep-alive".data "close".data = false := by decide

/-- The `no_more_requests` update of `ClientConnection::next`
(client.rs): match on the lowercased `Connection` header value. -/
def latch_of (rq : Rq) : Bool :=
  match rq.connection_hdr with
  | some h =>
    let v := h.data.map Char.toLower
    if contains_sub v "close".data then true
    else if contains_sub v "upgrade".data then true
    else if !contains_sub v "keep-alive".data && rq.version == Version.http10 then true
    else false
  | none => rq.version == Version.http10

/-- What one `next()` call produces before the state is repacked. -/
structure StepOut where
  yielded : Option Rq
  latch : Bool
  emits : List (List Nat)
  remaining : List ReadRes
deriving DecidableEq

/-- The `loop` of `ClientConnection::next` (client.rs): error outcomes
answer on a fresh writer slot and return `None`; a request whose version
exceeds 1.1 is answered with the 505 response and the loop continues
with the following `read`; otherwise the request is yielded and the
`no_more_requests` latch updated.  `emits` lists the bytes written to
the successive writer slots. -/
def conn_next_loop (date : String) : List ReadRes → StepOut
  | [] => ⟨none, false, [], []⟩
  | ReadRes.wrongRequestLine :: rest =>
      ⟨none, false, [raw_print (new_empty 400) Version.http11 none false none date], rest⟩
  | ReadRes.wrongHeader v :: rest =>
      ⟨none, false, [raw_print (new_empty 400) v none false none date], rest⟩
  | ReadRes.expectationFailed v :: rest =>
      ⟨none, false, [raw_print (new_empty 417) v none true none date], rest⟩
  | ReadRes.ioErr k :: rest =>
      if k = IoKind.timedOut then
        ⟨none, false, [raw_print (new_empty 408) Version.http11 none false none date], rest⟩
      else ⟨none, false, [], rest⟩
  | ReadRes.ok rq :: rest =>
      if version_gt_11 rq.version then
        let s := conn_next_loop date rest
        ⟨s.yielded, s.latch, raw_print resp_505 Version.http11 none false none date :: s.emits,
          s.remaining⟩
      else ⟨some rq, latch_of rq, [], rest⟩

/-- The per-connection state `next()` reads and updates. -/
structure Conn where
  reads : List ReadRes
  no_more_requests : Bool
deriving DecidableEq

/-- `<ClientConnection as Iterator>::next` (client.rs): `None`
immediately when the latch is set, otherwise run the read loop.  Returns
the yielded request, the updated connection and the responses emitted on
writer slots during this call. -/
def conn_next (c : Conn) (date : String) : Option Rq × Conn × List (List Nat) :=
  if c.no_more_requests then (none, c, [])
  else
    let s := conn_next_loop date c.reads
    (s.yielded, ⟨s.remaining, s.latch⟩, s.emits)

/-! ## ssl/rustls.rs: `RustlsContext::from_pem`

The PEM parsing of the `rustls-pemfile` crate is external; a PEM input
is modelled as the list of well-formed items it contains, so that
`certs`, `pkcs8_private_keys` and `rsa_private_keys` become filters.
`ServerConfig` construction after a key is found is abstracted to
success. -/

/-- A well-formed item of a PEM file. -/
inductive PemItem where
  | certificate
  | pkcs8_key
  | rsa_key
  | other_item
deriving DecidableEq

/-- Result of the total embedding of `RustlsContext::from_pem`:
`panicked` marks the `rsa_keys[0]` index on an empty vector. -/
inductive FromPemOutcome where
  | ok
  | err
  | panicked
deriving DecidableEq

/-- `RustlsContext::from_pem` (ssl/rustls.rs): fail when the certificate
chain is empty; use the first PKCS#8 key when one parses; otherwise
index `rsa_keys[0]`, which panics when no PKCS#1 RSA key parses either. -/
def from_pem (certificates : List PemItem) (private_key : List PemItem) : FromPemOutcome :=
  let certificate_chain := certificates.filter (fun b => b == PemItem.certificate)
  if certificate_chain.isEmpty then FromPemOutcome.err
  else
    match private_key.filter (fun b => b == PemItem.pkcs8_key) with
    | _ :: _ => FromPemOutcome.ok
    | [] =>
      match private_key.filter (fun b => b == PemItem.rsa_key) with
      | [] => FromPemOutcome.panicked
      | _ :: _ => FromPemOutcome.ok

/-! ## Helper lemmas -/

/-- Membership of a name in an extended header list. -/
theorem has_name_append (hs : List (String × String)) (m x n : String) :
    has_name (hs ++ [(m, x)]) n = (has_name hs n || (m == n)) := by
  simp [has_name]

/-- Looking a name up past a prefix that does not contain it. -/
theorem find_value_append (hs t : List (String × String)) (n : String)
    (h : has_name hs n = false) : find_value (hs ++ t) n = find_value t n := by
  induction hs with
  | nil => rfl
  | cons p hs ih =>
    simp only [has_name, List.any_cons, Bool.or_eq_false_iff] at h
    simp only [List.cons_append, find_value, h.1, if_false, Bool.false_eq_true]
    exact ih h.2

/-! ## Claim theorems -/

/-- C7: for every `Response` and header value, `add_header` with the
name `Connection`, `Trailer`, `Transfer-Encoding` or `Upgrade` (which
the `http` crate normalises to the lowercase strings below) returns the
response entirely unchanged, so such application-set headers never reach
the wire output. -/
theorem spec_C7 (r : Response) (name value : String)
    (h : name = "connection" ∨ name = "trailer" ∨ name = "transfer-encoding"
      ∨ name = "upgrade") :
    add_header r name value = r := by
  have hm : name ∈ forbidden_headers := by
    rcases h with h | h | h | h <;> simp [forbidden_headers, h]
  simp [add_header, hm]

/-- Witness for C7 at a concrete response and the `Connection` header. -/
theorem spec_C7_witness :
    add_header (⟨[], 200, [], some 0, none⟩ : Response) "connection" "close"
      = (⟨[], 200, [], some 0, none⟩ : Response) :=
  spec_C7 _ _ _ (Or.inl rfl)

/-- C8: `Header::from_str` rejects every input whose name part (the text
before the first colon) contains whitespace, splits only at the first
colon (`Time: 20: 34` keeps value `20: 34`), and trims surrounding
whitespace from the value. -/
theorem spec_C8 :
    (∀ input : List Char,
        (input.takeWhile (fun c => c != ':')).any is_rust_whitespace = true →
          header_from_str input = none)
      ∧ header_from_str "Time: 20: 34".data = some ("Time".data, "20: 34".data)
      ∧ header_from_str "Transfer-Encoding:   chunked ".data
          = some ("Transfer-Encoding".data, "chunked".data)
      ∧ header_from_str "Transfer-Encoding : chunked".data = none
      ∧ header_from_str "Transfer Encoding: chunked".data = none := by
  refine ⟨?_, by decide, by decide, by decide, by decide⟩
  intro input h
  simp [header_from_str, header_field_from_str, h]

/-- Witness for C8: the universal part applied to a concrete input whose
name part contains whitespace. -/
theorem spec_C8_witness : header_from_str " Transfer\tEncoding : chunked".data = none :=
  spec_C8.1 _ (by decide)

/-- C10: with a non-empty certificate chain but a private-key input
containing neither a parsable PKCS#8 key nor a parsable PKCS#1 RSA key,
`RustlsContext::from_pem` reaches the `rsa_keys[0]` index on an empty
vector, i.e. the panic branch of the total embedding. -/
theorem spec_C10 (certs pk : List PemItem)
    (hc : (certs.filter (fun b => b == PemItem.certificate)).isEmpty = false)
    (h8 : pk.filter (fun b => b == PemItem.pkcs8_key) = [])
    (h1 : pk.filter (fun b => b == PemItem.rsa_key) = []) :
    from_pem certs pk = FromPemOutcome.panicked := by
  simp [from_pem, hc, h8, h1]

/-- Witness for C10 at a concrete certificate and keyless PEM input. -/
theorem spec_C10_witness :
    from_pem [PemItem.certificate] [PemItem.other_item] = FromPemOutcome.panicked :=
  spec_C10 _ _ (by decide) (by decide) (by decide)

/-- C2 fails on the code: `ClientConnection::read` trims each header
line before parsing it, so the line `" Transfer-Encoding: chunked"`
(leading whitespace) is accepted as a `Transfer-Encoding` header instead
of producing `WrongHeader` and a 400 response. -/
theorem spec_C2_code_eval :
    read_header_line " Transfer-Encoding: chunked".data
      = some ("transfer-encoding".data, "chunked".data) := by decide

set_option maxRecDepth 100000 in
/-- C1 fails on the code: after answering 505 to a request whose version
exceeds 1.1, `ClientConnection::next` continues its loop instead of
terminating, and the very same call yields the connection's following
request. -/
theorem spec_C1_code_eval :
    (conn_next ⟨[ReadRes.ok ⟨Version.http2, none⟩, ReadRes.ok ⟨Version.http11, none⟩],
        false⟩ "D").1 = some ⟨Version.http11, none⟩
      ∧ (conn_next ⟨[ReadRes.ok ⟨Version.http2, none⟩, ReadRes.ok ⟨Version.http11, none⟩],
        false⟩ "D").2.2 = [raw_print resp_505 Version.http11 none false none "D"] := by
  decide

/-- C9: when `read` fails with an I/O error, `next` emits a 408 response
on the next writer slot and returns `None` if the kind is `TimedOut`,
and returns `None` with no bytes written for every other kind. -/
theorem spec_C9 (k : IoKind) (rest : List ReadRes) (date : String) :
    (conn_next ⟨ReadRes.ioErr k :: rest, false⟩ date).1 = none
      ∧ (conn_next ⟨ReadRes.ioErr k :: rest, false⟩ date).2.2
        = if k = IoKind.timedOut
            then [raw_print (new_empty 408) Version.http11 none false none date]
            else [] := by
  by_cases h : k = IoKind.timedOut <;> simp [conn_next, conn_next_loop, h]

/-- Witness for C9 at a concrete non-timeout I/O error. -/
theorem spec_C9_witness :
    (conn_next ⟨[ReadRes.ioErr IoKind.otherErr], false⟩ "D").1 = none
      ∧ (conn_next ⟨[ReadRes.ioErr IoKind.otherErr], false⟩ "D").2.2 = [] :=
  spec_C9 IoKind.otherErr [] "D"

/-- C5 fails on the code as stated: an HTTP/0.9 request (not an HTTP/1.0
request, status 200, no TE preference, unknown body length) falls in the
claim's "otherwise" branch, which predicts Chunked, but the source's
guard `*http_version <= Version::HTTP_10` returns Identity for it. -/
theorem spec_C5_counterexample :
    choose_transfer_encoding 200 none Version.http09 none false 32768
        = TransferEncoding.identity
      ∧ ¬ (choose_transfer_encoding 200 none Version.http09 none false 32768
        = TransferEncoding.chunked) := by decide

/-- C5 amended: `choose_transfer_encoding` returns Identity for every
request with version at most HTTP/1.0 and for every status in 1xx or
204; otherwise, with no additional-headers channel (as in every call in
the code) and no recognised TE preference, it returns Chunked exactly
when the body length is unknown or at least the chunked threshold, and
Identity when the length is known and below it; the threshold defaults
to 32768. -/
theorem spec_C5_amended (status : Nat) (user_te : Option TransferEncoding) (v : Version)
    (len : Option Nat) (thr : Nat) :
    (v.le Version.http10 = true →
        choose_transfer_encoding status user_te v len false thr = TransferEncoding.identity)
      ∧ ((100 ≤ status ∧ status < 200) ∨ status = 204 →
        choose_transfer_encoding status user_te v len false thr = TransferEncoding.identity)
      ∧ (v.le Version.http10 = false → ¬ ((100 ≤ status ∧ status < 200) ∨ status = 204) →
          user_te = none →
          choose_transfer_encoding status user_te v len false thr
            = match len with
              | none => TransferEncoding.chunked
              | some l => if thr ≤ l then TransferEncoding.chunked
                  else TransferEncoding.identity)
      ∧ (∀ r : Response, r.chunked_threshold = none → chunked_threshold_val r = 32768) := by
  refine ⟨?_, ?_, ?_, ?_⟩
  · intro h
    simp [choose_transfer_encoding, h]
  · intro h
    by_cases hv : v.le Version.http10 <;> simp [choose_transfer_encoding, hv, h]
  · intro h1 h2 h3
    subst h3
    cases len with
    | none => simp [choose_transfer_encoding, h1, h2]
    | some l => by_cases hl : thr ≤ l <;> simp [choose_transfer_encoding, h1, h2, hl]
  · intro r h
    simp [chunked_threshold_val, h]

/-- Witness for C5 at a concrete HTTP/1.0 request. -/
theorem spec_C5_witness :
    choose_transfer_encoding 200 none Version.http10 (some 5) false 32768
      = TransferEncoding.identity :=
  (spec_C5_amended 200 none Version.http10 (some 5) 32768).1 (by decide)

/-- C6: every `raw_print` call with a status in 100-199, 204 or 304, or
with `do_not_send_body` true, writes nothing after the blank CRLF line
terminating the header block: its output is exactly the header block. -/
theorem spec_C6 (r : Response) (v : Version) (ute : Option TransferEncoding)
    (dnsb : Bool) (up : Option String) (date : String)
    (h : dnsb = true ∨ (100 ≤ r.status_code ∧ r.status_code ≤ 199)
      ∨ r.status_code = 204 ∨ r.status_code = 304) :
    body_bytes r (effective_transfer r v ute up) dnsb = []
      ∧ raw_print r v ute dnsb up date
        = write_message_header v r.status_code
            (final_headers r (effective_transfer r v ute up) up date) := by
  have hd : response_body_disabled dnsb r.status_code = true := by
    simp only [response_body_disabled, Bool.or_eq_true, decide_eq_true_eq]
    rcases h with h | h
    · exact Or.inl h
    · exact Or.inr h
  constructor
  · simp [body_bytes, hd]
  · simp [raw_print, body_bytes, hd]

/-- Witness for C6 at a concrete 204 response with a non-empty reader. -/
theorem spec_C6_witness :
    body_bytes (⟨[104, 105], 204, [], some 2, none⟩ : Response)
        (effective_transfer (⟨[104, 105], 204, [], some 2, none⟩ : Response)
          Version.http11 none none) false = []
      ∧ raw_print (⟨[104, 105], 204, [], some 2, none⟩ : Response) Version.http11 none
          false none "D"
        = write_message_header Version.http11 204
            (final_headers (⟨[104, 105], 204, [], some 2, none⟩ : Response)
              (effective_transfer (⟨[104, 105], 204, [], some 2, none⟩ : Response)
                Version.http11 none none) none "D") :=
  spec_C6 _ Version.http11 none false none "D" (Or.inr (Or.inr (Or.inl rfl)))

/-- C4 fails on the code as stated: a request line with four
space-separated tokens is accepted, because `parse_request_line` only
examines the first three pieces of `line.split(' ')`. -/
theorem spec_C4_counterexample :
    parse_request_line "GET /hello HTTP/1.1 extra".data
        = some ("GET".data, "/hello".data, Version.http11)
      ∧ (split_spaces "GET /hello HTTP/1.1 extra".data).length = 4 := by decide

/-- C4 amended: `parse_request_line` succeeds exactly when the line has
at least three space-separated pieces whose first three are a valid
method token, a parsable URI and a supported HTTP version; pieces after
the third are ignored rather than rejected. -/
theorem spec_C4_amended (line : List Char) :
    (parse_request_line line).isSome = true ↔
      ∃ m p v rest, split_spaces line = m :: p :: v :: rest
        ∧ (parse_method m).isSome = true ∧ (parse_uri p).isSome = true
        ∧ (parse_http_version v).isSome = true := by
  cases hs : split_spaces line with
  | nil => simp [parse_request_line, hs]
  | cons a t =>
    cases t with
    | nil =>
      cases hma : parse_method a <;> simp [parse_request_line, hs, hma]
    | cons b t2 =>
      cases t2 with
      | nil =>
        cases hma : parse_method a <;> cases hpb : parse_uri b <;>
          simp [parse_request_line, hs, hma, hpb]
      | cons c rest =>
        cases hma : parse_method a <;> cases hpb : parse_uri b <;>
          cases hvc : parse_http_version c <;>
          simp [parse_request_line, hs, hma, hpb, hvc]
        exact ⟨a, b, c, ⟨rfl, rfl, rfl⟩, by simp [hma], by simp [hpb], by simp [hvc]⟩

/-- Witness for C4: the amended equivalence applied to a concrete
three-token request line. -/
theorem spec_C4_witness : (parse_request_line "GET / HTTP/1.0".data).isSome = true :=
  (spec_C4_amended _).mpr
    ⟨"GET".data, "/".data, "HTTP/1.0".data, [], by decide, by decide, by decide, by decide⟩

/-- Injecting `Date` does not create an unrelated name. -/
theorem has_name_with_date (hs : List (String × String)) (date n : String)
    (h : has_name hs n = false) (hd : ("date" == n) = false) :
    has_name (headers_with_date hs date) n = false := by
  by_cases hx : has_name hs "date" <;>
    simp [headers_with_date, hx, has_name_append, h, hd]

/-- Injecting `Server` does not create an unrelated name. -/
theorem has_name_with_server (hs : List (String × String)) (n : String)
    (h : has_name hs n = false) (hsv : ("server" == n) = false) :
    has_name (headers_with_server hs) n = false := by
  by_cases hx : has_name hs "server" <;>
    simp [headers_with_server, hx, has_name_append, h, hsv]

/-- C3 fails on the code as stated: with a declared `data_length` of 5
but a reader yielding only 3 bytes, `raw_print` emits
`Content-Length: 5` yet copies the reader to EOF, writing 3 body bytes,
so the emitted `Content-Length` differs from the number of body bytes
actually written. -/
theorem spec_C3_counterexample :
    effective_transfer (⟨[97, 98, 99], 200, [], some 5, none⟩ : Response)
        Version.http11 none none = some TransferEncoding.identity
      ∧ body_bytes (⟨[97, 98, 99], 200, [], some 5, none⟩ : Response)
          (some TransferEncoding.identity) false = [97, 98, 99]
      ∧ find_value (final_headers (⟨[97, 98, 99], 200, [], some 5, none⟩ : Response)
          (some TransferEncoding.identity) none "D") "content-length" = some "5"
      ∧ ¬ (find_value (final_headers (⟨[97, 98, 99], 200, [], some 5, none⟩ : Response)
          (some TransferEncoding.identity) none "D") "content-length"
          = some (toString (body_bytes (⟨[97, 98, 99], 200, [], some 5, none⟩ : Response)
              (some TransferEncoding.identity) false).length)) := by decide

/-- C3 amended: when `raw_print` uses Identity and the body is sent, the
emitted `Content-Length` equals the number of body bytes written for
every reader whose byte count matches the declared `data_length`, and
always when `data_length` is unknown (the reader is then buffered and
measured). -/
theorem spec_C3_amended (r : Response) (v : Version) (ute : Option TransferEncoding)
    (dnsb : Bool) (up : Option String) (date : String)
    (hte : effective_transfer r v ute up = some TransferEncoding.identity)
    (hsend : response_body_disabled dnsb r.status_code = false)
    (hlen : r.data_length = none ∨ r.data_length = some r.reader_bytes.length)
    (hcl : has_name r.headers "content-length" = false) :
    find_value (final_headers r (effective_transfer r v ute up) up date) "content-length"
      = some (toString (body_bytes r (effective_transfer r v ute up) dnsb).length) := by
  cases up with
  | some u => simp [effective_transfer] at hte
  | none =>
    have hbl : buffered_length r (some TransferEncoding.identity)
        = some r.reader_bytes.length := by
      rcases hlen with h | h <;> simp [buffered_length, h]
    have h2 : has_name (headers_with_server (headers_with_date r.headers date))
        "content-length" = false :=
      has_name_with_server _ _ (has_name_with_date _ _ _ hcl (by decide)) (by decide)
    have hfh : final_headers r (some TransferEncoding.identity) none date
        = headers_with_server (headers_with_date r.headers date)
          ++ [("content-length", toString r.reader_bytes.length)] := by
      simp only [final_headers, hbl, Option.getD_some]
    have hblen : (body_bytes r (some TransferEncoding.identity) dnsb).length
        = r.reader_bytes.length := by
      simp only [body_bytes, hsend, hbl, Option.getD_some, Bool.false_eq_true, if_false]
      by_cases hl : 1 ≤ r.reader_bytes.length
      · simp [hl]
      · simp [hl]
        omega
    rw [hte, hfh, find_value_append _ _ _ h2, hblen]
    simp [find_value]

/-- Witness for C3 at a concrete response whose reader yields exactly
the declared three bytes. -/
theorem spec_C3_witness :
    find_value (final_headers (⟨[97, 98, 99], 200, [], some 3, none⟩ : Response)
        (effective_transfer (⟨[97, 98, 99], 200, [], some 3, none⟩ : Response)
          Version.http11 none none) none "D") "content-length"
      = some (toString (body_bytes (⟨[97, 98, 99], 200, [], some 3, none⟩ : Response)
          (effective_transfer (⟨[97, 98, 99], 200, [], some 3, none⟩ : Response)
            Version.http11 none none) false).length) :=
  spec_C3_amended _ Version.http11 none false none "D" (by decide) (by decide)
    (Or.inr (by decide)) (by decide)
